import Mathlib

/-!
Verification of the racetrack reconstruction core of `tracker_solver.py`.

The reconstruction pipeline of `solve_track` (source lines 41-82) is embedded
shallowly:

* a CSV row `(x, y, color)` becomes a `Cone` record; coordinates are modelled
  as exact rationals (the claims under study are structural and do not depend
  on float64 rounding);
* `df[df["color"] == c]` becomes `filterColor`;
* `df["x"].mean()` / `df["y"].mean()` become `centerOf` (pandas yields NaN on
  an empty column, modelled as `none`);
* `get_angle` (line 62, `np.arctan2(y - cy, x - cx)`) is kept abstract in the
  pipeline: the pipeline is parametrised by an angle assignment
  `getAngle : ℚ → ℚ → ℚ → ℚ → θ` into a linearly ordered type, exactly the
  interface the sort consumes; the real-number semantics of `np.arctan2` is
  characterised separately via `Complex.arg` (`get_angle_rel`);
* `sort_values("angle")` followed by `reset_index(drop=True)` becomes
  `sortByAngle`, a comparison sort by the angle key.  `sort_values` defaults to
  numpy's introsort, which coincides with insertion sort on partitions of at
  most 16 elements; the pipeline model uses insertion sort, which agrees with
  the numpy result up to the relative order of equal keys (and agrees exactly
  for boundary classes of at most 16 cones).  The tie-breaking behaviour of
  the actual numpy introsort is modelled faithfully and separately by
  `np_argsort_quicksort` below, translated from numpy's
  `npysort/quicksort.c.src` (`aquicksort`) and `heapsort.c.src` (`aheapsort`);
* the aligned Series arithmetic of lines 77-78
  (`(blue_sorted["x"] + yellow_sorted["x"]) / 2` on two `RangeIndex`ed
  Series) becomes `midAligned`: position `i` holds the midpoint when both
  operands have a row `i`, and NaN (modelled as `none`) otherwise — pandas
  aligns on the union of the two indices;
* the loop closure of lines 81-82 (`mid_x.iloc[[0]]` appended) becomes
  `buildCenterline`; `iloc[[0]]` on an empty Series raises `IndexError`,
  modelled as `Except.error PyErr.indexError`.

The script defines no error classes of its own; the constructors
`emptyInputError` and `boundaryMismatchError` of `PyErr` record the error
taxonomy named by the design document so that claims mentioning those errors
can be stated; no code path of the embedding produces them.
-/

namespace TrackerSolver

/-- One row of `cones.csv`: a landmark point with its boundary label
(the source calls the labels colors, `"blue"` and `"yellow"`). -/
structure Cone where
  x : ℚ
  y : ℚ
  color : String
deriving DecidableEq, Repr

/-- Failure modes.  The script itself only ever hits `indexError`
(`mid_x.iloc[[0]]` on an empty Series); `emptyInputError` and
`boundaryMismatchError` are the error names introduced by the design
document and are produced by no code path. -/
inductive PyErr where
  | indexError
  | emptyInputError
  | boundaryMismatchError
deriving DecidableEq, Repr

/-- Line 50/51: `df[df["color"] == col].copy()`. -/
def filterColor (col : String) (df : List Cone) : List Cone :=
  df.filter (fun c => c.color == col)

/-- Lines 55-56: `center_x = df["x"].mean()`, `center_y = df["y"].mean()`.
The mean runs over every row of `df`, whatever its label.  On an empty
frame pandas returns NaN, modelled as `none`. -/
def centerOf (df : List Cone) : Option (ℚ × ℚ) :=
  if df.length = 0 then none
  else some ((df.map Cone.x).sum / (df.length : ℚ), (df.map Cone.y).sum / (df.length : ℚ))

/-- Lines 65-66: attach `get_angle(row["x"], row["y"], center_x, center_y)`
to every row of one boundary class. -/
def withAngle {θ : Type} (getAngle : ℚ → ℚ → ℚ → ℚ → θ) (cx cy : ℚ)
    (cl : List Cone) : List (Cone × θ) :=
  cl.map (fun c => (c, getAngle c.x c.y cx cy))

/-- Lines 69-70: `sort_values("angle").reset_index(drop=True)`, an ascending
comparison sort on the angle column.  Modelled as insertion sort, which is
numpy's own algorithm for partitions of at most 16 elements; see the module
comment and `np_argsort_quicksort` for the tie-breaking of larger inputs. -/
def sortByAngle {θ : Type} [LinearOrder θ] (l : List (Cone × θ)) : List (Cone × θ) :=
  List.insertionSort (fun p q => p.2 ≤ q.2) l

/-- One sorted boundary class: angles attached, then sorted ascending. -/
def orderedBoundary {θ : Type} [LinearOrder θ] (getAngle : ℚ → ℚ → ℚ → ℚ → θ)
    (cx cy : ℚ) (cl : List Cone) : List (Cone × θ) :=
  sortByAngle (withAngle getAngle cx cy cl)

/-- Elementwise midpoint of two points (lines 77-78). -/
def midPt (p q : ℚ × ℚ) : ℚ × ℚ :=
  ((p.1 + q.1) / 2, (p.2 + q.2) / 2)

/-- Lines 77-78: `(blue_sorted[c] + yellow_sorted[c]) / 2` for `c = x, y`.
Both operands carry `RangeIndex(0..len-1)`, so pandas aligns them on the
union of the two ranges: position `i` is the midpoint when both series have
a row `i` and NaN (`none`) when only the longer one does. -/
def midAligned : List (ℚ × ℚ) → List (ℚ × ℚ) → List (Option (ℚ × ℚ))
  | [], bs => bs.map (fun _ => none)
  | _ :: as_, [] => none :: midAligned as_ []
  | p :: as_, q :: bs => some (midPt p q) :: midAligned as_ bs

/-- Lines 81-82: close the loop by appending row 0 of the midpoint series.
`mid_x.iloc[[0]]` raises `IndexError` when the series is empty. -/
def buildCenterline (a b : List (ℚ × ℚ)) : Except PyErr (List (Option (ℚ × ℚ))) :=
  match midAligned a b with
  | [] => Except.error PyErr.indexError
  | m0 :: rest => Except.ok ((m0 :: rest) ++ [m0])

/-- Coordinates of the cones of one sorted boundary, in sorted order. -/
def coords {θ : Type} (l : List (Cone × θ)) : List (ℚ × ℚ) :=
  l.map (fun p => (p.1.x, p.1.y))

/-- Steps 4-5 of `solve_track`, starting from the already computed center and
the two already separated boundary classes: attach angles, sort each class,
pair rank-for-rank and close the loop. -/
def solveFrom {θ : Type} [LinearOrder θ] (getAngle : ℚ → ℚ → ℚ → ℚ → θ)
    (center : ℚ × ℚ) (blue yellow : List Cone) :
    Except PyErr (List (Option (ℚ × ℚ))) :=
  buildCenterline
    (coords (orderedBoundary getAngle center.1 center.2 blue))
    (coords (orderedBoundary getAngle center.1 center.2 yellow))

/-- The reconstruction core of `solve_track` (lines 41-82): separate the two
classes, compute the center over all rows, and build the centerline.  When
the frame is empty the center is NaN in the source; the `getD (0, 0)` default
is never observable because both classes are then empty and the run aborts
with `indexError` before any angle is consumed. -/
def solve_track {θ : Type} [LinearOrder θ] (getAngle : ℚ → ℚ → ℚ → ℚ → θ)
    (df : List Cone) : Except PyErr (List (Option (ℚ × ℚ))) :=
  solveFrom getAngle ((centerOf df).getD (0, 0))
    (filterColor "blue" df) (filterColor "yellow" df)

/-- Every intermediate artifact of one reconstruction run, for the
determinism claim: the center, the per-point angles of both classes, both
orderings, and the centerline. -/
structure Artifacts (θ : Type) where
  center : Option (ℚ × ℚ)
  blueAngled : List (Cone × θ)
  yellowAngled : List (Cone × θ)
  blueOrdered : List (Cone × θ)
  yellowOrdered : List (Cone × θ)
  centerline : Except PyErr (List (Option (ℚ × ℚ)))

/-- One full run of the reconstruction, keeping every intermediate value. -/
def reconstructArtifacts {θ : Type} [LinearOrder θ] (getAngle : ℚ → ℚ → ℚ → ℚ → θ)
    (df : List Cone) : Artifacts θ :=
  let c := (centerOf df).getD (0, 0)
  let blue := filterColor "blue" df
  let yellow := filterColor "yellow" df
  let ba := withAngle getAngle c.1 c.2 blue
  let ya := withAngle getAngle c.1 c.2 yellow
  { center := centerOf df
    blueAngled := ba
    yellowAngled := ya
    blueOrdered := sortByAngle ba
    yellowOrdered := sortByAngle ya
    centerline := buildCenterline (coords (sortByAngle ba)) (coords (sortByAngle ya)) }

/-- Concrete angle assignment used to instantiate the parametric pipeline in
witnesses and counterexamples whose content does not depend on which angle
function is used. -/
def angQ : ℚ → ℚ → ℚ → ℚ → ℚ :=
  fun x y cx cy => (x - cx) + (y - cy)

/-!
Faithful model of the sort actually dispatched by
`sort_values("angle")`: the pandas `nargsort` helper calls `ndarray.argsort` with the
default `kind="quicksort"`, numpy's introsort over an index array
(`aquicksort` in `npysort/quicksort.c.src`, with `aheapsort` of
`npysort/heapsort.c.src` as the depth-limit fallback and insertion sort for
partitions of at most `SMALL_QUICKSORT = 15 + 1` elements).  The translation
below keeps the exact control flow: the pointer variables `pl, pr, pm, pi,
pj` become indices into the `tosort` array, the explicit partition stack
becomes a list of `(pl, pr)` pairs, and the C do-while scans become fuelled
recursions.  The angle keys carry no NaN, so `FLOAT_LT(a, b)` is plain
`a < b`.  All loops are given generous fuel; every bound needed by the
claims is reached long before the fuel runs out.
-/

/-- `FLOAT_LT` of numpy's sort templates, for keys without NaN. -/
def npLt (a b : ℚ) : Bool :=
  decide (a < b)

/-- Key of the row whose index sits at position `i` of the index array:
`v[tosort[i]]`. -/
def vAt (v : Array ℚ) (t : Array Nat) (i : Nat) : ℚ :=
  v.getD (t.getD i 0) 0

/-- `INTP_SWAP(tosort[i], tosort[j])`. -/
def aswap (t : Array Nat) (i j : Nat) : Array Nat :=
  let a := t.getD i 0
  let b := t.getD j 0
  (t.setD i b).setD j a

/-- Partition scan `do ++pi; while (FLOAT_LT(v[*pi], vp));` — returns the
final value of `pi`. -/
def scanR (v : Array ℚ) (t : Array Nat) (vp : ℚ) : Nat → Nat → Nat
  | 0, i => i + 1
  | fuel + 1, i =>
    let i2 := i + 1
    if npLt (vAt v t i2) vp then scanR v t vp fuel i2 else i2

/-- Partition scan `do --pj; while (FLOAT_LT(vp, v[*pj]));` — returns the
final value of `pj`. -/
def scanL (v : Array ℚ) (t : Array Nat) (vp : ℚ) : Nat → Nat → Nat
  | 0, j => j - 1
  | fuel + 1, j =>
    let j2 := j - 1
    if npLt vp (vAt v t j2) then scanL v t vp fuel j2 else j2

/-- The crossing-pointer partition loop of `aquicksort`: scan, stop when the
pointers cross, otherwise swap and continue.  Returns the final `pi` and the
permuted index array. -/
def partLoop (v : Array ℚ) (vp : ℚ) : Nat → Nat → Nat → Array Nat → Nat × Array Nat
  | 0, i, _, t => (i, t)
  | fuel + 1, i, j, t =>
    let i2 := scanR v t vp (t.size + 2) i
    let j2 := scanL v t vp (t.size + 2) j
    if j2 ≤ i2 then (i2, t)
    else partLoop v vp fuel i2 j2 (aswap t i2 j2)

/-- Inner shifting loop of the insertion sort of `aquicksort`:
`while (pj > pl && FLOAT_LT(vp, v[*pk])) { *pj-- = *pk--; }`. -/
def insShift (v : Array ℚ) (pl : Nat) (vp : ℚ) : Nat → Nat → Array Nat → Nat × Array Nat
  | 0, j, t => (j, t)
  | fuel + 1, j, t =>
    if decide (pl < j) && npLt vp (vAt v t (j - 1)) then
      insShift v pl vp fuel (j - 1) (t.setD j (t.getD (j - 1) 0))
    else (j, t)

/-- The insertion sort run by `aquicksort` on `tosort[pl..pr]` once a
partition has at most `SMALL_QUICKSORT + 1` elements. -/
def insOuter (v : Array ℚ) (pl pr : Nat) (t : Array Nat) : Array Nat :=
  (List.range' (pl + 1) (pr + 1 - (pl + 1))).foldl
    (fun t pi =>
      let vi := t.getD pi 0
      let vp := v.getD vi 0
      let (pj, t2) := insShift v pl vp pi pi t
      t2.setD pj vi)
    t

/-- Sift-down loop shared by both phases of `aheapsort`.  The C code works on
`a = tosort - 1`, so the 1-based heap slot `k` is `tosort[pl + k - 1]`.
Returns the final `i` and the updated index array; the caller stores `tmp`
at slot `i`. -/
def hsSift (v : Array ℚ) (pl n tmp : Nat) : Nat → Nat → Nat → Array Nat → Nat × Array Nat
  | 0, i, _, t => (i, t)
  | fuel + 1, i, j, t =>
    if j ≤ n then
      let j2 :=
        if decide (j < n) &&
            npLt (v.getD (t.getD (pl + j - 1) 0) 0) (v.getD (t.getD (pl + j) 0) 0)
        then j + 1 else j
      if npLt (v.getD tmp 0) (v.getD (t.getD (pl + j2 - 1) 0) 0) then
        hsSift v pl n tmp fuel j2 (j2 + j2) (t.setD (pl + i - 1) (t.getD (pl + j2 - 1) 0))
      else (i, t)
    else (i, t)

/-- Heapify phase of `aheapsort`: `for (l = n >> 1; l > 0; --l)`. -/
def hsHeapify (v : Array ℚ) (pl n : Nat) : Nat → Array Nat → Array Nat
  | 0, t => t
  | l + 1, t =>
    let tmp := t.getD (pl + l) 0
    let (i, t2) := hsSift v pl n tmp (n + 2) (l + 1) ((l + 1) * 2) t
    hsHeapify v pl n l (t2.setD (pl + i - 1) tmp)

/-- Extraction phase of `aheapsort`: `for (; n > 1;)`.  The argument is the
current heap size. -/
def hsExtract (v : Array ℚ) (pl : Nat) : Nat → Array Nat → Array Nat
  | 0, t => t
  | 1, t => t
  | n + 2, t =>
    let tmp := t.getD (pl + n + 1) 0
    let t2 := t.setD (pl + n + 1) (t.getD pl 0)
    let (i, t3) := hsSift v pl (n + 1) tmp (n + 3) 1 2 t2
    hsExtract v pl (n + 1) (t3.setD (pl + i - 1) tmp)

/-- `aheapsort` on the subrange `tosort[pl .. pl + n - 1]`. -/
def aheapsortRange (v : Array ℚ) (pl n : Nat) (t : Array Nat) : Array Nat :=
  hsExtract v pl n (hsHeapify v pl n (n / 2) t)

/-- Main loop of `aquicksort`: median-of-three pivot, crossing-pointer
partition, explicit stack of pending `(pl, pr)` ranges, insertion sort for
small partitions, `aheapsort` once `depth_limit` is exhausted.  The
`depth_limit--` of the C code tests the current value and decrements in both
outcomes. -/
def aqsMain (v : Array ℚ) : Nat → Nat → Nat → Int → List (Nat × Nat) → Array Nat → Array Nat
  | 0, _, _, _, _, t => t
  | fuel + 1, pl, pr, depth, stack, t =>
    if 15 < pr - pl then
      if depth < 0 then
        let t2 := aheapsortRange v pl (pr - pl + 1) t
        match stack with
        | [] => t2
        | (pl2, pr2) :: rest => aqsMain v fuel pl2 pr2 (depth - 1) rest t2
      else
        let pm := pl + (pr - pl) / 2
        let t1 := if npLt (vAt v t pm) (vAt v t pl) then aswap t pm pl else t
        let t2 := if npLt (vAt v t1 pr) (vAt v t1 pm) then aswap t1 pr pm else t1
        let t3 := if npLt (vAt v t2 pm) (vAt v t2 pl) then aswap t2 pm pl else t2
        let vp := vAt v t3 pm
        let t4 := aswap t3 pm (pr - 1)
        let (pi, t5) := partLoop v vp (pr - pl + 2) pl (pr - 1) t4
        let t6 := aswap t5 pi (pr - 1)
        if pi - pl < pr - pi then
          aqsMain v fuel pl (pi - 1) (depth - 1) ((pi + 1, pr) :: stack) t6
        else
          aqsMain v fuel (pi + 1) pr (depth - 1) ((pl, pi - 1) :: stack) t6
    else
      let t2 := insOuter v pl pr t
      match stack with
      | [] => t2
      | (pl2, pr2) :: rest => aqsMain v fuel pl2 pr2 depth rest t2

/-- `ndarray.argsort(kind="quicksort")` on a NaN-free float key column —
the indexer the pandas `nargsort` helper applies to the rows in
`sort_values("angle")`.  `npy_get_msb num * 2` is the introsort depth limit;
the fuel is generous and never runs out on the inputs of the claims. -/
def np_argsort_quicksort (keys : List ℚ) : List Nat :=
  let n := keys.length
  if n = 0 then []
  else
    (aqsMain keys.toArray (4 * n * n + 16) 0 (n - 1) (2 * (Nat.log2 n : Int)) []
      (Array.range n)).toList

/-! ### Helper lemmas -/

theorem midAligned_length (a b : List (ℚ × ℚ)) :
    (midAligned a b).length = max a.length b.length := by
  induction a generalizing b with
  | nil => simp [midAligned]
  | cons p as_ ih =>
    cases b with
    | nil =>
      have h := ih []
      simp [midAligned] at h ⊢
      omega
    | cons q bs =>
      have h := ih bs
      simp [midAligned, h]
      omega

theorem midAligned_eq_zipWith {a b : List (ℚ × ℚ)} (h : a.length = b.length) :
    midAligned a b = (List.zipWith midPt a b).map some := by
  induction a generalizing b with
  | nil =>
    cases b with
    | nil => simp [midAligned]
    | cons q bs => simp at h
  | cons p as_ ih =>
    cases b with
    | nil => simp at h
    | cons q bs =>
      simp only [List.length_cons, Nat.add_right_cancel_iff] at h
      simp [midAligned, List.zipWith_cons_cons, ih h]

theorem midAligned_nil_left (b : List (ℚ × ℚ)) :
    midAligned [] b = b.map (fun _ => none) := rfl

theorem midAligned_nil_right (a : List (ℚ × ℚ)) :
    midAligned a [] = a.map (fun _ => none) := by
  induction a with
  | nil => simp [midAligned]
  | cons p as_ ih => simp [midAligned, ih]

theorem midAligned_getElem_none {a b : List (ℚ × ℚ)} {i : Nat}
    (hmin : a.length ≤ i ∨ b.length ≤ i) (hmax : i < max a.length b.length) :
    (midAligned a b)[i]? = some none := by
  induction a generalizing b i with
  | nil =>
    cases b with
    | nil => simp at hmax
    | cons q bs =>
      have hb : i < (q :: bs).length := by simpa using hmax
      rw [midAligned_nil_left, List.getElem?_map, List.getElem?_eq_getElem hb]
      rfl
  | cons p as_ ih =>
    cases b with
    | nil =>
      have ha : i < (p :: as_).length := by simpa using hmax
      rw [midAligned_nil_right, List.getElem?_map, List.getElem?_eq_getElem ha]
      rfl
    | cons q bs =>
      cases i with
      | zero => simp at hmin
      | succ j =>
        simp only [List.length_cons] at hmin hmax
        have hmax2 : j < max as_.length bs.length := by omega
        have hmin2 : as_.length ≤ j ∨ bs.length ≤ j := by omega
        simpa [midAligned] using ih hmin2 hmax2

theorem solve_track_eq_artifacts_centerline {θ : Type} [LinearOrder θ]
    (getAngle : ℚ → ℚ → ℚ → ℚ → θ) (df : List Cone) :
    solve_track getAngle df = (reconstructArtifacts getAngle df).centerline := rfl

theorem orderedBoundary_length {θ : Type} [LinearOrder θ]
    (getAngle : ℚ → ℚ → ℚ → ℚ → θ) (cx cy : ℚ) (cl : List Cone) :
    (orderedBoundary getAngle cx cy cl).length = cl.length := by
  rw [orderedBoundary, sortByAngle, List.length_insertionSort, withAngle, List.length_map]

theorem coords_orderedBoundary_length {θ : Type} [LinearOrder θ]
    (getAngle : ℚ → ℚ → ℚ → ℚ → θ) (cx cy : ℚ) (cl : List Cone) :
    (coords (orderedBoundary getAngle cx cy cl)).length = cl.length := by
  rw [coords, List.length_map, orderedBoundary_length]

theorem buildCenterline_ok {a b : List (ℚ × ℚ)} (h : 0 < max a.length b.length) :
    buildCenterline a b = Except.ok (midAligned a b ++ [(midAligned a b).headI]) := by
  have hlen : (midAligned a b).length = max a.length b.length := midAligned_length a b
  match hM : midAligned a b with
  | [] =>
    rw [hM] at hlen
    simp at hlen
    omega
  | m0 :: rest =>
    simp [buildCenterline, hM, List.headI]

/-- Shared description of a run whose two boundary classes are not both
empty: the run succeeds, the centerline is the aligned midpoint list closed
with a copy of its first entry, its pre-closure length is the larger class
size, and every pre-closure slot at or past the smaller class size holds
NaN. -/
theorem solve_track_structure {θ : Type} [LinearOrder θ]
    (getAngle : ℚ → ℚ → ℚ → ℚ → θ) (df : List Cone)
    (h : 0 < max (filterColor "blue" df).length (filterColor "yellow" df).length) :
    ∃ M : List (Option (ℚ × ℚ)),
      solve_track getAngle df = Except.ok (M ++ [M.headI]) ∧
      M.length =
        max (filterColor "blue" df).length (filterColor "yellow" df).length ∧
      ∀ i, min (filterColor "blue" df).length (filterColor "yellow" df).length ≤ i →
        i < max (filterColor "blue" df).length (filterColor "yellow" df).length →
        M[i]? = some none := by
  refine ⟨midAligned
      (coords (orderedBoundary getAngle ((centerOf df).getD (0, 0)).1
        ((centerOf df).getD (0, 0)).2 (filterColor "blue" df)))
      (coords (orderedBoundary getAngle ((centerOf df).getD (0, 0)).1
        ((centerOf df).getD (0, 0)).2 (filterColor "yellow" df))), ?_, ?_, ?_⟩
  · rw [solve_track, solveFrom]
    exact buildCenterline_ok (by
      rw [coords_orderedBoundary_length, coords_orderedBoundary_length]; exact h)
  · rw [midAligned_length, coords_orderedBoundary_length, coords_orderedBoundary_length]
  · intro i hmin hmax
    refine midAligned_getElem_none ?_ ?_
    · rw [coords_orderedBoundary_length, coords_orderedBoundary_length]
      omega
    · rw [coords_orderedBoundary_length, coords_orderedBoundary_length]
      exact hmax

/-! ### C2 — empty input -/

/-- C2 (counterexample): on the empty input the run does fail and produces no
centerline, but the failure is the `IndexError` raised by `mid_x.iloc[[0]]`
on the empty midpoint series, not an `EmptyInputError` — the script never
checks for emptiness and defines no such error. -/
theorem c2_counterexample :
    solve_track angQ [] = Except.error PyErr.indexError ∧
    ¬ solve_track angQ [] = Except.error PyErr.emptyInputError := by
  refine ⟨rfl, ?_⟩
  intro h
  rw [show solve_track angQ [] = Except.error PyErr.indexError from rfl] at h
  simp at h

/-- C2 (amended): for the empty input set, `solve_track` fails — with the
index error raised while closing the empty centerline, not with a dedicated
`EmptyInputError` — and produces no `Centerline`.  The statement holds for
every angle assignment. -/
theorem c2_empty_input_fails {θ : Type} [LinearOrder θ]
    (getAngle : ℚ → ℚ → ℚ → ℚ → θ) :
    solve_track getAngle [] = Except.error PyErr.indexError := rfl

/-! ### C4 — midpoints and loop closure for equal-length boundaries -/

/-- C4 (counterexample): the claim quantifies over every pair of equal-length
ordered boundaries, but at `N = 0` the builder does not return the claimed
`N + 1 = 1` point: `mid_x.iloc[[0]]` on the empty midpoint series raises
`IndexError`, so no centerline at all is produced. -/
theorem c4_counterexample :
    buildCenterline [] [] = Except.error PyErr.indexError := rfl

/-- C4 (amended): for every pair of equal-length ordered boundaries with
`N ≥ 1` points each, the centerline is the `N` rank-paired elementwise
midpoints followed by an appended copy of midpoint `0`, giving exactly
`N + 1` points whose first and last entries are exactly equal; for `N = 0`
the builder instead fails with an index error. -/
theorem c4_centerline_closure {a b : List (ℚ × ℚ)}
    (hlen : a.length = b.length) (hne : 1 ≤ a.length) :
    buildCenterline a b =
      Except.ok ((List.zipWith midPt a b).map some ++ [some (midPt a.headI b.headI)]) ∧
    ((List.zipWith midPt a b).map some ++ [some (midPt a.headI b.headI)]).length =
      a.length + 1 ∧
    ((List.zipWith midPt a b).map some ++ [some (midPt a.headI b.headI)]).head? =
      ((List.zipWith midPt a b).map some ++ [some (midPt a.headI b.headI)]).getLast? := by
  match a, b, hlen, hne with
  | p :: as_, q :: bs, hlen, _ =>
    have hz : midAligned (p :: as_) (q :: bs) =
        some (midPt p q) :: (List.zipWith midPt as_ bs).map some := by
      rw [midAligned_eq_zipWith (a := p :: as_) (b := q :: bs) hlen]
      rw [List.zipWith_cons_cons, List.map_cons]
    have hlen2 : as_.length = bs.length := by simpa using hlen
    refine ⟨?_, ?_, ?_⟩
    · rw [buildCenterline, hz]
      rw [List.zipWith_cons_cons, List.map_cons]
      simp
    · simp [List.zipWith_cons_cons, List.length_zipWith, hlen2]
    · rw [List.zipWith_cons_cons, List.map_cons, List.getLast?_concat]
      rfl

/-- Witness for C4 (amended) at a pair of two-point boundaries. -/
theorem c4_centerline_closure_witness :
    buildCenterline [(0, 0), (2, 2)] [(2, 0), (0, 2)] =
      Except.ok [some (1, 0), some (1, 2), some (1, 0)] := by
  have h := (c4_centerline_closure (a := [(0, 0), (2, 2)]) (b := [(2, 0), (0, 2)])
    (by decide) (by decide)).1
  norm_num [midPt, List.zipWith, List.headI] at h
  exact h

/-! ### C5 — the center is the global unweighted mean -/

/-- C5 (confirmed): for every non-empty input the center is the unweighted
arithmetic mean of the x and of the y coordinates over all input rows, and
it does not depend on the boundary labels: relabelling every row arbitrarily
leaves the center unchanged.  `solve_track` computes this center exactly
once and threads it through the rest of the pipeline
(`solve_track_eq_artifacts_centerline` and the definition of
`reconstructArtifacts`). -/
theorem c5_center_global_mean (df : List Cone) (h : df ≠ []) :
    centerOf df =
      some ((df.map Cone.x).sum / (df.length : ℚ), (df.map Cone.y).sum / (df.length : ℚ)) ∧
    ∀ f : Cone → String,
      centerOf (df.map (fun c => { x := c.x, y := c.y, color := f c })) = centerOf df := by
  have hlen : ¬ df.length = 0 := by
    simpa [List.length_eq_zero] using h
  constructor
  · rw [centerOf, if_neg hlen]
  · intro f
    rw [centerOf, centerOf, if_neg (by simpa using hlen), if_neg hlen]
    simp [List.map_map, Function.comp_def]

/-- Witness for C5 at a concrete one-row input. -/
theorem c5_center_global_mean_witness :
    centerOf [⟨1, 2, "blue"⟩] =
      some ((([⟨1, 2, "blue"⟩] : List Cone).map Cone.x).sum / 1,
        (([⟨1, 2, "blue"⟩] : List Cone).map Cone.y).sum / 1) ∧
    centerOf (([⟨1, 2, "blue"⟩] : List Cone).map
        (fun c => { x := c.x, y := c.y, color := "yellow" })) =
      centerOf [⟨1, 2, "blue"⟩] :=
  ⟨by simpa using (c5_center_global_mean [⟨1, 2, "blue"⟩] (by simp)).1,
    (c5_center_global_mean [⟨1, 2, "blue"⟩] (by simp)).2 (fun _ => "yellow")⟩

/-! ### C8 — determinism -/

/-- C8 (confirmed): two runs of the reconstruction on the same input produce
identical results in every artifact — the center, the per-point angles of
both classes, both orderings, and the centerline.  The embedding is a pure
function of the input list, with no hidden state between runs. -/
theorem c8_determinism {θ : Type} [LinearOrder θ] (getAngle : ℚ → ℚ → ℚ → ℚ → θ)
    (df1 df2 : List Cone) (h : df1 = df2) :
    (reconstructArtifacts getAngle df1).center = (reconstructArtifacts getAngle df2).center ∧
    (reconstructArtifacts getAngle df1).blueAngled =
      (reconstructArtifacts getAngle df2).blueAngled ∧
    (reconstructArtifacts getAngle df1).yellowAngled =
      (reconstructArtifacts getAngle df2).yellowAngled ∧
    (reconstructArtifacts getAngle df1).blueOrdered =
      (reconstructArtifacts getAngle df2).blueOrdered ∧
    (reconstructArtifacts getAngle df1).yellowOrdered =
      (reconstructArtifacts getAngle df2).yellowOrdered ∧
    solve_track getAngle df1 = solve_track getAngle df2 := by
  subst h
  exact ⟨rfl, rfl, rfl, rfl, rfl, rfl⟩

/-- Witness for C8 at a concrete two-point input. -/
theorem c8_determinism_witness :
    (reconstructArtifacts angQ [⟨0, 0, "blue"⟩, ⟨2, 2, "yellow"⟩]).center =
      (reconstructArtifacts angQ [⟨0, 0, "blue"⟩, ⟨2, 2, "yellow"⟩]).center :=
  (c8_determinism angQ [⟨0, 0, "blue"⟩, ⟨2, 2, "yellow"⟩]
    [⟨0, 0, "blue"⟩, ⟨2, 2, "yellow"⟩] rfl).1

/-! ### C1 and C9 — mismatched boundary cardinalities -/

/-- C1 (counterexample): with one blue cone and two yellow cones the run
succeeds, but the centerline has `max(1,2) + 1 = 3` entries — the unmatched
yellow point produces a NaN midpoint slot — not the `min(1,2) + 1 = 2`
entries the claim asserts; nothing is dropped. -/
theorem c1_counterexample :
    solve_track angQ [⟨0, 0, "blue"⟩, ⟨4, 0, "yellow"⟩, ⟨0, 4, "yellow"⟩] =
      Except.ok [some (2, 0), none, some (2, 0)] ∧
    (filterColor "blue" [⟨0, 0, "blue"⟩, ⟨4, 0, "yellow"⟩, ⟨0, 4, "yellow"⟩]).length = 1 ∧
    (filterColor "yellow" [⟨0, 0, "blue"⟩, ⟨4, 0, "yellow"⟩, ⟨0, 4, "yellow"⟩]).length = 2 ∧
    ([some (2, 0), none, some (2, 0)] : List (Option (ℚ × ℚ))).length ≠ min 1 2 + 1 := by
  refine ⟨?_, rfl, rfl, by decide⟩
  norm_num [solve_track, solveFrom, buildCenterline, orderedBoundary, sortByAngle,
    withAngle, coords, centerOf, filterColor, midAligned, midPt, angQ,
    List.insertionSort, List.orderedInsert]

/-- C1 (amended): when the two boundary classes have different cardinalities,
`solve_track` does not fail: it pairs points index-for-index after sorting,
and the resulting centerline has `max(|A|, |B|) + 1` points — not
`min(|A|, |B|) + 1`; the unmatched tail of the longer boundary is kept as
NaN midpoint entries rather than silently dropped. -/
theorem c1_mismatch_keeps_max {θ : Type} [LinearOrder θ]
    (getAngle : ℚ → ℚ → ℚ → ℚ → θ) (df : List Cone)
    (h : (filterColor "blue" df).length ≠ (filterColor "yellow" df).length) :
    (solve_track getAngle df).toOption ≠ none ∧
    ((solve_track getAngle df).toOption.getD []).length =
      max (filterColor "blue" df).length (filterColor "yellow" df).length + 1 ∧
    ((solve_track getAngle df).toOption.getD []).length ≠
      min (filterColor "blue" df).length (filterColor "yellow" df).length + 1 := by
  obtain ⟨M, hok, hlen, -⟩ := solve_track_structure getAngle df (by omega)
  rw [hok]
  refine ⟨by simp [Except.toOption], ?_, ?_⟩
  · simp [Except.toOption, hlen]
  · simp [Except.toOption, hlen]
    omega

/-- Witness for C1 (amended) at one blue and two yellow cones. -/
theorem c1_mismatch_keeps_max_witness :
    ((solve_track angQ [⟨0, 0, "blue"⟩, ⟨4, 0, "yellow"⟩, ⟨0, 4, "yellow"⟩]).toOption.getD
      []).length = 3 := by
  have h := (c1_mismatch_keeps_max angQ
    [⟨0, 0, "blue"⟩, ⟨4, 0, "yellow"⟩, ⟨0, 4, "yellow"⟩] (by decide)).2.1
  simpa using h

/-- C9 (confirmed): with mismatched class sizes `m ≠ n` the rank pairing
aligns the two sorted coordinate series on the union of their index ranges:
the run raises no exception, the centerline keeps `max(m, n) + 1` entries,
and every pre-closure entry at an index in `[min(m, n), max(m, n))` is a NaN
placeholder (`none`) — the excess points are not removed. -/
theorem c9_mismatch_nan_tail {θ : Type} [LinearOrder θ]
    (getAngle : ℚ → ℚ → ℚ → ℚ → θ) (df : List Cone)
    (h : (filterColor "blue" df).length ≠ (filterColor "yellow" df).length) :
    (solve_track getAngle df).toOption ≠ none ∧
    ((solve_track getAngle df).toOption.getD []).length =
      max (filterColor "blue" df).length (filterColor "yellow" df).length + 1 ∧
    ∀ i, min (filterColor "blue" df).length (filterColor "yellow" df).length ≤ i →
      i < max (filterColor "blue" df).length (filterColor "yellow" df).length →
      ((solve_track getAngle df).toOption.getD [])[i]? = some none := by
  obtain ⟨M, hok, hlen, hnan⟩ := solve_track_structure getAngle df (by omega)
  rw [hok]
  refine ⟨by simp [Except.toOption], by simp [Except.toOption, hlen], ?_⟩
  intro i hmin hmax
  have hi : i < M.length := by omega
  simp only [Except.toOption, Option.getD_some]
  rw [List.getElem?_append_left hi]
  exact hnan i hmin hmax

/-- Witness for C9: at one blue and two yellow cones, entry 1 of the
centerline (the unmatched yellow slot) is NaN. -/
theorem c9_mismatch_nan_tail_witness :
    ((solve_track angQ [⟨0, 0, "blue"⟩, ⟨4, 0, "yellow"⟩,
      ⟨0, 4, "yellow"⟩]).toOption.getD [])[1]? = some none := by
  have h := (c9_mismatch_nan_tail angQ
    [⟨0, 0, "blue"⟩, ⟨4, 0, "yellow"⟩, ⟨0, 4, "yellow"⟩] (by decide)).2.2 1
    (by decide) (by decide)
  simpa using h

/-! ### C7 — each ordered boundary is a sorted permutation of its class -/

instance instAngleLeTotal {θ : Type} [LinearOrder θ] :
    IsTotal (Cone × θ) (fun p q => p.2 ≤ q.2) :=
  ⟨fun a b => le_total a.2 b.2⟩

instance instAngleLeTrans {θ : Type} [LinearOrder θ] :
    IsTrans (Cone × θ) (fun p q => p.2 ≤ q.2) :=
  ⟨fun _ _ _ h1 h2 => le_trans h1 h2⟩

/-- C7 (confirmed): for every boundary class (any label `col`), the ordered
boundary is a permutation of that class's input rows — same length, nothing
dropped or duplicated — and it is sorted ascending by the attached angle:
`angle[i] ≤ angle[j]` whenever `i < j`. -/
theorem c7_ordered_boundary_perm_sorted {θ : Type} [LinearOrder θ]
    (getAngle : ℚ → ℚ → ℚ → ℚ → θ) (cx cy : ℚ) (df : List Cone) (col : String) :
    ((orderedBoundary getAngle cx cy (filterColor col df)).map Prod.fst).Perm
      (filterColor col df) ∧
    (orderedBoundary getAngle cx cy (filterColor col df)).length =
      (filterColor col df).length ∧
    ∀ i j (hi : i < (orderedBoundary getAngle cx cy (filterColor col df)).length)
      (hj : j < (orderedBoundary getAngle cx cy (filterColor col df)).length),
      i < j →
      ((orderedBoundary getAngle cx cy (filterColor col df)).get ⟨i, hi⟩).2 ≤
        ((orderedBoundary getAngle cx cy (filterColor col df)).get ⟨j, hj⟩).2 := by
  have hperm : (orderedBoundary getAngle cx cy (filterColor col df)).Perm
      (withAngle getAngle cx cy (filterColor col df)) :=
    List.perm_insertionSort _ _
  have hsorted : List.Sorted (fun p q : Cone × θ => p.2 ≤ q.2)
      (orderedBoundary getAngle cx cy (filterColor col df)) :=
    List.sorted_insertionSort _ _
  refine ⟨?_, ?_, ?_⟩
  · have := hperm.map Prod.fst
    refine this.trans ?_
    rw [show (withAngle getAngle cx cy (filterColor col df)).map Prod.fst =
        filterColor col df by
      rw [withAngle, List.map_map,
        show (Prod.fst ∘ fun c : Cone => (c, getAngle c.x c.y cx cy)) = id from rfl,
        List.map_id]]
  · rw [hperm.length_eq]
    simp [withAngle]
  · intro i j hi hj hij
    exact hsorted.rel_get_of_lt hij

/-- Witness for C7: a concrete three-cone blue class whose sorted angles at
positions 0 and 1 are in order. -/
theorem c7_ordered_boundary_perm_sorted_witness :
    ((orderedBoundary angQ 0 0 (filterColor "blue"
        [⟨3, 0, "blue"⟩, ⟨1, 0, "blue"⟩, ⟨2, 0, "blue"⟩])).get
      ⟨0, by rw [orderedBoundary_length]; decide⟩).2 ≤
    ((orderedBoundary angQ 0 0 (filterColor "blue"
        [⟨3, 0, "blue"⟩, ⟨1, 0, "blue"⟩, ⟨2, 0, "blue"⟩])).get
      ⟨1, by rw [orderedBoundary_length]; decide⟩).2 :=
  (c7_ordered_boundary_perm_sorted angQ 0 0
    [⟨3, 0, "blue"⟩, ⟨1, 0, "blue"⟩, ⟨2, 0, "blue"⟩] "blue").2.2 0 1 _ _
    (by decide)

/-! ### C10 — rows with an unrecognized boundary label -/

/-- C10 (confirmed): a cone whose label is neither `"blue"` nor `"yellow"`
is excluded from both boundary classes — so from both orderings and from
the centerline — yet still enters the center: the center of the extended
input averages over the extra row too, and the whole downstream pipeline
(the angle assignment included) runs on the boundaries of the original rows
but with that shifted center. -/
theorem c10_unrecognized_label {θ : Type} [LinearOrder θ]
    (getAngle : ℚ → ℚ → ℚ → ℚ → θ) (df : List Cone) (c : Cone)
    (hb : c.color ≠ "blue") (hy : c.color ≠ "yellow") :
    filterColor "blue" (df ++ [c]) = filterColor "blue" df ∧
    filterColor "yellow" (df ++ [c]) = filterColor "yellow" df ∧
    centerOf (df ++ [c]) =
      some (((df.map Cone.x).sum + c.x) / ((df.length : ℚ) + 1),
        ((df.map Cone.y).sum + c.y) / ((df.length : ℚ) + 1)) ∧
    solve_track getAngle (df ++ [c]) =
      solveFrom getAngle ((centerOf (df ++ [c])).getD (0, 0))
        (filterColor "blue" df) (filterColor "yellow" df) := by
  have hfb : filterColor "blue" (df ++ [c]) = filterColor "blue" df := by
    simp [filterColor, List.filter_append, List.filter_cons, hb]
  have hfy : filterColor "yellow" (df ++ [c]) = filterColor "yellow" df := by
    simp [filterColor, List.filter_append, List.filter_cons, hy]
  refine ⟨hfb, hfy, ?_, ?_⟩
  · rw [centerOf, if_neg (by simp)]
    simp only [List.map_append, List.sum_append, List.length_append, List.map_cons,
      List.map_nil, List.sum_cons, List.sum_nil, List.length_cons, List.length_nil,
      Option.some.injEq, Prod.mk.injEq]
    push_cast
    constructor <;> ring_nf
  · rw [solve_track, hfb, hfy]

/-- Witness for C10 with a green cone appended to a one-blue, one-yellow
input. -/
theorem c10_unrecognized_label_witness :
    filterColor "blue" ([⟨0, 0, "blue"⟩, ⟨2, 0, "yellow"⟩] ++ [⟨9, 9, "green"⟩]) =
      filterColor "blue" [⟨0, 0, "blue"⟩, ⟨2, 0, "yellow"⟩] :=
  (c10_unrecognized_label angQ [⟨0, 0, "blue"⟩, ⟨2, 0, "yellow"⟩] ⟨9, 9, "green"⟩
    (by decide) (by decide)).1

/-! ### C6 — the angle is the two-argument arctangent -/

/-- Real-number semantics of `get_angle` (line 62):
`np.arctan2(y - cy, x - cx)` is the argument of the complex number
`(x - cx) + (y - cy) i`, i.e. `Complex.arg`, which is exactly the standard
two-argument arctangent with range `(-π, π]` and `atan2(0, 0) = 0`. -/
def get_angle_rel (x y cx cy t : ℝ) : Prop :=
  t = Complex.arg { re := x - cx, im := y - cy }

/-- C6 (confirmed): the angle assigned to a point is `atan2(y - cy, x - cx)`:
it lies in the half-open interval `(-π, π]`; a point coinciding exactly with
the center receives angle `0` (no error); and away from the center it is the
unique such angle whose cosine and sine match the direction vector, which is
the defining property of the two-argument arctangent. -/
theorem c6_angle_atan2 (x y cx cy t : ℝ) (h : get_angle_rel x y cx cy t) :
    (-Real.pi < t ∧ t ≤ Real.pi) ∧
    (x = cx ∧ y = cy → t = 0) ∧
    (({ re := x - cx, im := y - cy } : ℂ) ≠ 0 →
      Real.cos t = (x - cx) / Complex.abs { re := x - cx, im := y - cy } ∧
      Real.sin t = (y - cy) / Complex.abs { re := x - cx, im := y - cy }) := by
  rw [get_angle_rel] at h
  subst h
  refine ⟨⟨Complex.neg_pi_lt_arg _, Complex.arg_le_pi _⟩, ?_, ?_⟩
  · rintro ⟨hx, hy⟩
    rw [show ({ re := x - cx, im := y - cy } : ℂ) = 0 by
      apply Complex.ext <;> simp [hx, hy]]
    exact Complex.arg_zero
  · intro hz
    exact ⟨Complex.cos_arg hz, Complex.sin_arg _⟩

/-- Witness for C6 at the point `(1, 0)` with center `(0, 0)`. -/
theorem c6_angle_atan2_witness :
    (-Real.pi < Complex.arg { re := (1 : ℝ) - 0, im := (0 : ℝ) - 0 } ∧
      Complex.arg { re := (1 : ℝ) - 0, im := (0 : ℝ) - 0 } ≤ Real.pi) ∧
    ((1 : ℝ) = 0 ∧ (0 : ℝ) = 0 →
      Complex.arg { re := (1 : ℝ) - 0, im := (0 : ℝ) - 0 } = 0) ∧
    (({ re := (1 : ℝ) - 0, im := (0 : ℝ) - 0 } : ℂ) ≠ 0 →
      Real.cos (Complex.arg { re := (1 : ℝ) - 0, im := (0 : ℝ) - 0 }) =
        ((1 : ℝ) - 0) / Complex.abs { re := (1 : ℝ) - 0, im := (0 : ℝ) - 0 } ∧
      Real.sin (Complex.arg { re := (1 : ℝ) - 0, im := (0 : ℝ) - 0 }) =
        ((0 : ℝ) - 0) / Complex.abs { re := (1 : ℝ) - 0, im := (0 : ℝ) - 0 }) :=
  c6_angle_atan2 1 0 0 0 _ rfl

/-! ### C3 — the angular sort is not stable -/

/-- Failing input for the stability requirement: seventeen blue cones, all
at `(1, 0)`.  Their mean is `(1, 0)`, so every cone coincides with the
center and receives the exact same angle `atan2(0, 0) = 0` (the degenerate
tie the design document explicitly accepts).  Seventeen equal keys exceed
numpy's 16-element insertion-sort cutoff, so one quicksort partition runs on
the tied keys. -/
def dfC3 : List Cone :=
  List.replicate 17 ⟨1, 0, "blue"⟩

set_option maxRecDepth 8000 in
/-- C3 (code_bug): `sort_values("angle")` uses numpy's default quicksort,
which is not stable.  On the 17 equal-angle rows of `dfC3` the argsort
indexer is the permutation `[0, 14, 13, ..., 7, 16]`, not the identity: row
2 is placed before row 1 even though both carry the identical angle, so the
relative input order of equal-angle points is not preserved.  (The same
value `0` is the true float angle of every row: each cone coincides with the
center, and `atan2(0, 0) = 0`.) -/
theorem c3_sort_not_stable :
    centerOf dfC3 = some (1, 0) ∧
    (withAngle angQ 1 0 (filterColor "blue" dfC3)).map Prod.snd =
      List.replicate 17 0 ∧
    np_argsort_quicksort ((withAngle angQ 1 0 (filterColor "blue" dfC3)).map Prod.snd) =
      [0, 14, 13, 12, 11, 10, 9, 15, 8, 6, 5, 4, 3, 2, 1, 7, 16] ∧
    np_argsort_quicksort ((withAngle angQ 1 0 (filterColor "blue" dfC3)).map Prod.snd) ≠
      List.range 17 ∧
    (np_argsort_quicksort
        ((withAngle angQ 1 0 (filterColor "blue" dfC3)).map Prod.snd)).indexOf 2 <
      (np_argsort_quicksort
        ((withAngle angQ 1 0 (filterColor "blue" dfC3)).map Prod.snd)).indexOf 1 := by
  have hfilter : filterColor "blue" dfC3 = dfC3 := by decide
  have hkeys : (withAngle angQ 1 0 (filterColor "blue" dfC3)).map Prod.snd =
      List.replicate 17 0 := by
    rw [hfilter]
    unfold dfC3 withAngle
    rw [List.map_replicate, List.map_replicate]
    norm_num [angQ]
  refine ⟨?_, hkeys, ?_, ?_, ?_⟩
  · unfold dfC3 centerOf
    rw [if_neg (by decide)]
    rw [List.map_replicate, List.map_replicate, List.sum_replicate, List.sum_replicate]
    norm_num
  · rw [hkeys]
    decide
  · rw [hkeys]
    decide
  · rw [hkeys]
    decide

end TrackerSolver

